import Mathlib

/-
Verification of the tap interface binding layer (tap bindings and
VirtualTapInterface) and of the wire codec netmask-to-prefix conversion.

The binding layer is embedded as an explicit state machine: the Registry
maps engine handles to interface objects (identified by numeric ids), each
interface carries the listening flag, stream lock flag, source-closed flag
and the readable stream's queue of frames, and the mandatory deferral of
inbound frame delivery is a queue of pending (handle, frame) continuations
drained one at a time by microtask steps.  Foreign (linear) memory is a
function from addresses to bytes.
-/

/-- A frame is an immutable byte sequence. -/
abbrev Frame := List Nat

/-- The engine's linear memory, addressed bytewise. -/
abbrev Mem := Nat → Nat

/-- Error taxonomy of the binding layer and codec. -/
inductive TapErr
  | alreadyListening
  | registrationFailed
  | sendFailed (code : Int)
  | nonContiguousBits
deriving DecidableEq, Repr

/-- Lookup in an association list with Map semantics (first key match). -/
def mapLookup : List (Nat × α) → Nat → Option α
  | [], _ => none
  | (k, v) :: rest, key => if k = key then some v else mapLookup rest key

/-- Map.set: replace the value at the key if present, else append the entry. -/
def mapSet : List (Nat × α) → Nat → α → List (Nat × α)
  | [], k, v => [(k, v)]
  | (k1, v1) :: rest, k, v =>
    if k1 = k then (k, v) :: rest else (k1, v1) :: mapSet rest k v

/-- Update the value stored at the first occurrence of a key, if any. -/
def mapUpdate : List (Nat × α) → Nat → (α → α) → List (Nat × α)
  | [], _, _ => []
  | (k1, v) :: rest, k, f =>
    if k1 = k then (k1, f v) :: rest else (k1, v) :: mapUpdate rest k f

/-- Delete the first entry holding a given value (Map iteration followed by
a delete of the matching key, as in TapBindings.remove). -/
def mapDeleteByVal : List (Nat × Nat) → Nat → List (Nat × Nat)
  | [], _ => []
  | (h, v) :: rest, iface =>
    if v = iface then rest else (h, v) :: mapDeleteByVal rest iface

/-- Reverse lookup: the key of the first entry holding a given value. -/
def reverseLookup : List (Nat × Nat) → Nat → Option Nat
  | [], _ => none
  | (h, v) :: rest, iface =>
    if v = iface then some h else reverseLookup rest iface

theorem mapLookup_mapSet_self (l : List (Nat × α)) (k : Nat) (v : α) :
    mapLookup (mapSet l k v) k = some v := by
  induction l with
  | nil => simp [mapSet, mapLookup]
  | cons p rest ih =>
    obtain ⟨k1, v1⟩ := p
    by_cases hk : k1 = k
    · simp [mapSet, hk, mapLookup]
    · simp [mapSet, hk, mapLookup, ih]

theorem mapLookup_mapSet_ne (l : List (Nat × α)) (k key : Nat) (v : α)
    (h : k ≠ key) : mapLookup (mapSet l k v) key = mapLookup l key := by
  induction l with
  | nil => simp [mapSet, mapLookup, h]
  | cons p rest ih =>
    obtain ⟨k1, v1⟩ := p
    by_cases hk : k1 = k
    · subst hk
      simp [mapSet, mapLookup, h]
    · simp [mapSet, hk, mapLookup, ih]

theorem mapLookup_mapUpdate_self (l : List (Nat × α)) (k : Nat) (f : α → α) :
    mapLookup (mapUpdate l k f) k = (mapLookup l k).map f := by
  induction l with
  | nil => simp [mapUpdate, mapLookup]
  | cons p rest ih =>
    obtain ⟨k1, v⟩ := p
    by_cases hk : k1 = k
    · simp [mapUpdate, hk, mapLookup]
    · simp [mapUpdate, hk, mapLookup, ih]

theorem mapLookup_mapUpdate_ne (l : List (Nat × α)) (k key : Nat) (f : α → α)
    (h : k ≠ key) : mapLookup (mapUpdate l k f) key = mapLookup l key := by
  induction l with
  | nil => simp [mapUpdate, mapLookup]
  | cons p rest ih =>
    obtain ⟨k1, v⟩ := p
    by_cases hk : k1 = k
    · subst hk
      simp [mapUpdate, mapLookup, h]
    · simp [mapUpdate, hk, mapLookup, ih]

theorem mapLookup_append (l1 l2 : List (Nat × α)) (k : Nat) :
    mapLookup (l1 ++ l2) k =
      match mapLookup l1 k with
      | some v => some v
      | none => mapLookup l2 k := by
  induction l1 with
  | nil => simp [mapLookup]
  | cons p rest ih =>
    obtain ⟨k1, v1⟩ := p
    by_cases hk : k1 = k <;> simp [mapLookup, hk, ih]

theorem mapLookup_mapDeleteByVal (l : List (Nat × Nat)) (key id other : Nat)
    (h : mapLookup l key = some id) (hne : id ≠ other) :
    mapLookup (mapDeleteByVal l other) key = some id := by
  induction l with
  | nil => simp [mapLookup] at h
  | cons p rest ih =>
    obtain ⟨k1, v1⟩ := p
    by_cases hv : v1 = other
    · by_cases hk : k1 = key
      · rw [mapLookup, if_pos hk] at h
        cases h
        exact absurd hv hne
      · rw [mapLookup, if_neg hk] at h
        simp [mapDeleteByVal, hv]
        exact h
    · by_cases hk : k1 = key
      · rw [mapLookup, if_pos hk] at h
        simp [mapDeleteByVal, hv, mapLookup, hk, h]
      · rw [mapLookup, if_neg hk] at h
        simp [mapDeleteByVal, hv, mapLookup, hk]
        exact ih h

/-- Consumer-visible state of one VirtualTapInterface: the listening flag
(#isListening), whether the readable stream's controller was assigned
(#readableController, set by the stream's start callback during
construction), whether the stream is currently locked by a reader, whether
the consumer has discarded (cancelled) the frame source, and the readable
stream's queue of buffered frames. -/
structure IfaceState where
  isListening : Bool
  controllerInit : Bool
  locked : Bool
  sourceClosed : Bool
  queue : List Frame
deriving DecidableEq, Repr

/-- State of a freshly constructed VirtualTapInterface: not listening, not
locked, source open, empty queue.  The readable stream controller is
assigned during construction because the stream's start callback runs
synchronously inside the ExtendedReadableStream constructor. -/
def IfaceState.fresh : IfaceState :=
  { isListening := false, controllerInit := true, locked := false,
    sourceClosed := false, queue := [] }

/-- Outcome of one run of the inner receiveFrame hook. -/
inductive DispatchOutcome
  | droppedNotListening
  | errNoController
  | droppedClosed
  | enqueued
deriving DecidableEq, Repr

/-- The inner receiveFrame hook of VirtualTapInterface: frames are not
buffered until the consumer signals intent to listen; with no controller
the hook fails; enqueuing onto a cancelled (closed) stream throws inside
the hook, so the frame is not buffered; otherwise the frame is appended to
the readable stream's queue. -/
def receiveFrameHook (st : IfaceState) (f : Frame) : IfaceState × DispatchOutcome :=
  if st.isListening = false then (st, DispatchOutcome.droppedNotListening)
  else if st.controllerInit = false then (st, DispatchOutcome.errNoController)
  else if st.sourceClosed = true then (st, DispatchOutcome.droppedClosed)
  else ({ st with queue := st.queue ++ [f] }, DispatchOutcome.enqueued)

/-- Modelled from the spec: the iteration accessor (fromReadable, defined in
util.js which is not among the available sources) acquires a reader on the
readable stream; anything that locks the stream fires the lock hook, which
sets the listening flag. -/
def acquireReader (st : IfaceState) : IfaceState :=
  { st with isListening := true, locked := true }

/-- Modelled from the spec: a consumer stops consuming by discarding the
frame source (the iterator teardown in util.js, not among the available
sources, cancels the reader and closes the stream); afterwards further
inbound frames for the interface are dropped. -/
def discardSource (st : IfaceState) : IfaceState :=
  { st with sourceClosed := true }

/-- VirtualTapInterface.listen: fails when the readable stream is already
locked, otherwise acquires the reader (locking the stream and setting the
listening flag via the lock hook). -/
def VirtualTapInterface.listen (st : IfaceState) : Except TapErr IfaceState :=
  if st.locked = true then Except.error TapErr.alreadyListening
  else Except.ok (acquireReader st)

/-- The lwIP success status code. -/
def ERR_OK : Int := 0

/-- The outer sendFrame hook: marshals the frame and invokes the engine's
send operation (abstracted as a function from the frame to the returned
status code); any status other than ERR_OK becomes a thrown SendFailed. -/
def sendFrameHook (engineSend : Frame → Int) (frame : Frame) : Except TapErr Unit :=
  let result := engineSend frame
  if result ≠ ERR_OK then Except.error (TapErr.sendFailed result) else Except.ok ()

/-- Observable state of the writable sink: whether it has closed, and the
console error log. -/
structure SinkState where
  closed : Bool
  log : List String
deriving DecidableEq, Repr

/-- The writable sink's write operation: triggers a send and catches any
failure, logging it; the sink stays open and the writer sees no error. -/
def writableWrite (engineSend : Frame → Int) (frame : Frame) (sink : SinkState) : SinkState :=
  match sendFrameHook engineSend frame with
  | Except.ok _ => sink
  | Except.error _ => { sink with log := sink.log ++ ["tap interface send failed"] }

/-- Events driving the binding-layer state machine. -/
inductive Event
  | register (handle : Nat)
  | deliver (handle ptr len : Nat)
  | microtask
  | memWrite (addr val : Nat)
  | lock (ifaceId : Nat)
  | discard (ifaceId : Nat)
  | removeIface (ifaceId : Nat)
deriving DecidableEq, Repr

def Event.isMemWrite : Event → Bool
  | Event.memWrite _ _ => true
  | _ => false

/-- Global state of the binding layer: the Registry (handle to interface id),
the interface objects by id, a fresh-id counter, the queue of deferred
deliveries, the engine's linear memory and the console error log. -/
structure TapState where
  registry : List (Nat × Nat)
  ifaces : List (Nat × IfaceState)
  nextId : Nat
  pending : List (Nat × Frame)
  mem : Mem
  log : List String

/-- copyFromMemory: snapshot len bytes starting at ptr out of foreign memory. -/
def copyFromMemory (mem : Mem) (ptr len : Nat) : Frame :=
  (List.range len).map (fun i => mem (ptr + i))

/-- Effect on the interface of an attempt to lock the frame source: a lock
of an unlocked stream fires the lock hook (listen intent); locking an
already locked stream throws first and changes nothing. -/
def lockAttempt (st : IfaceState) : IfaceState :=
  if st.locked = true then st else acquireReader st

/-- One step of the binding-layer machine.  register constructs a fresh
VirtualTapInterface and stores the mapping; deliver runs the synchronous
half of receive_frame (copy the bytes out, defer the rest); microtask runs
the oldest deferred delivery (unknown handle is logged and dropped,
otherwise the inner receiveFrame hook runs); memWrite is the engine reusing
its buffer; lock, discard act on the frame source; removeIface is
TapBindings.remove for a registered interface object. -/
def step (s : TapState) : Event → TapState
  | Event.register h =>
    { s with registry := mapSet s.registry h s.nextId,
             ifaces := s.ifaces ++ [(s.nextId, IfaceState.fresh)],
             nextId := s.nextId + 1 }
  | Event.deliver h ptr len =>
    { s with pending := s.pending ++ [(h, copyFromMemory s.mem ptr len)] }
  | Event.microtask =>
    match s.pending with
    | [] => s
    | (h, f) :: rest =>
      match mapLookup s.registry h with
      | none =>
        { s with pending := rest,
                 log := s.log ++ ["received frame on unknown tap interface"] }
      | some id =>
        { s with pending := rest,
                 ifaces := mapUpdate s.ifaces id (fun st => (receiveFrameHook st f).1) }
  | Event.memWrite a v =>
    { s with mem := fun x => if x = a then v else s.mem x }
  | Event.lock id =>
    { s with ifaces := mapUpdate s.ifaces id lockAttempt }
  | Event.discard id =>
    { s with ifaces := mapUpdate s.ifaces id discardSource }
  | Event.removeIface id =>
    { s with registry := mapDeleteByVal s.registry id }

/-- Run a list of events from a state. -/
def run : TapState → List Event → TapState
  | s, [] => s
  | s, e :: l => run (step s e) l

/-- The initial state: empty registry, no interfaces, zeroed memory. -/
def initState : TapState :=
  { registry := [], ifaces := [], nextId := 0, pending := [],
    mem := fun _ => 0, log := [] }

/-- All frames sitting in the deferred-delivery queue. -/
def pendingFrames (s : TapState) : List Frame :=
  s.pending.map Prod.snd

/-- The queue of frames buffered in a given interface's readable stream. -/
def queueFrames (s : TapState) (id : Nat) : List Frame :=
  match mapLookup s.ifaces id with
  | some st => st.queue
  | none => []

/-- Whether, along a run of events from a state, some deliver event copies
exactly the given byte sequence out of foreign memory. -/
def copiedIn (s : TapState) : List Event → Frame → Bool
  | [], _ => false
  | e :: l, f =>
    (match e with
     | Event.deliver _ p n => decide (f = copyFromMemory s.mem p n)
     | _ => false) || copiedIn (step s e) l f

theorem receiveFrameHook_of_not_listening (st : IfaceState) (f : Frame)
    (h : st.isListening = false) :
    receiveFrameHook st f = (st, DispatchOutcome.droppedNotListening) := by
  simp [receiveFrameHook, h]

theorem receiveFrameHook_fst_of_closed (st : IfaceState) (f : Frame)
    (h : st.sourceClosed = true) : (receiveFrameHook st f).1 = st := by
  unfold receiveFrameHook
  split
  · rfl
  · split
    · rfl
    · simp [h]

theorem receiveFrameHook_queue (st : IfaceState) (f : Frame) :
    ((receiveFrameHook st f).1).queue = st.queue ∨
    ((receiveFrameHook st f).1).queue = st.queue ++ [f] := by
  unfold receiveFrameHook
  split
  · exact Or.inl rfl
  · split
    · exact Or.inl rfl
    · split
      · exact Or.inl rfl
      · exact Or.inr rfl

theorem receiveFrameHook_flags (st : IfaceState) (f : Frame) :
    ((receiveFrameHook st f).1).isListening = st.isListening ∧
    ((receiveFrameHook st f).1).controllerInit = st.controllerInit ∧
    ((receiveFrameHook st f).1).sourceClosed = st.sourceClosed := by
  unfold receiveFrameHook
  split
  · exact ⟨rfl, rfl, rfl⟩
  · split
    · exact ⟨rfl, rfl, rfl⟩
    · split
      · exact ⟨rfl, rfl, rfl⟩
      · exact ⟨rfl, rfl, rfl⟩

theorem lockAttempt_controllerInit (st : IfaceState) :
    (lockAttempt st).controllerInit = st.controllerInit := by
  unfold lockAttempt acquireReader
  split <;> rfl

theorem lockAttempt_sourceClosed (st : IfaceState) :
    (lockAttempt st).sourceClosed = st.sourceClosed := by
  unfold lockAttempt acquireReader
  split <;> rfl

theorem lockAttempt_queue (st : IfaceState) :
    (lockAttempt st).queue = st.queue := by
  unfold lockAttempt acquireReader
  split <;> rfl

theorem run_append (l1 l2 : List Event) :
    ∀ s : TapState, run s (l1 ++ l2) = run (run s l1) l2 := by
  induction l1 with
  | nil => intro s; rfl
  | cons e l ih => intro s; exact ih (step s e)

theorem run_preserves (Inv : TapState → Prop) (ok : Event → Prop)
    (hstep : ∀ t e, Inv t → ok e → Inv (step t e)) :
    ∀ (l : List Event) (t : TapState), Inv t → (∀ e ∈ l, ok e) → Inv (run t l) := by
  intro l
  induction l with
  | nil => intro t h _; exact h
  | cons e l ih =>
    intro t h hok
    exact ih (step t e) (hstep t e h (hok e (List.mem_cons_self e l)))
      (fun x hx => hok x (List.mem_cons_of_mem e hx))

theorem step_microtask_nil (s : TapState) (hp : s.pending = []) :
    step s Event.microtask = s := by
  simp [step, hp]

theorem step_microtask_unknown (s : TapState) (h : Nat) (f : Frame)
    (rest : List (Nat × Frame)) (hp : s.pending = (h, f) :: rest)
    (hr : mapLookup s.registry h = none) :
    step s Event.microtask =
      { s with pending := rest,
               log := s.log ++ ["received frame on unknown tap interface"] } := by
  simp [step, hp, hr]

theorem step_microtask_known (s : TapState) (h : Nat) (f : Frame)
    (rest : List (Nat × Frame)) (id : Nat)
    (hp : s.pending = (h, f) :: rest) (hr : mapLookup s.registry h = some id) :
    step s Event.microtask =
      { s with pending := rest,
               ifaces := mapUpdate s.ifaces id (fun st => (receiveFrameHook st f).1) } := by
  simp [step, hp, hr]

theorem mapLookup_step_ifaces (t : TapState) (e : Event) (id : Nat) :
    mapLookup (step t e).ifaces id = mapLookup t.ifaces id ∨
    (mapLookup t.ifaces id = none ∧
      mapLookup (step t e).ifaces id = some IfaceState.fresh) ∨
    (∃ st f, mapLookup t.ifaces id = some st ∧ f ∈ pendingFrames t ∧
      mapLookup (step t e).ifaces id = some (receiveFrameHook st f).1) ∨
    (∃ st, mapLookup t.ifaces id = some st ∧ e = Event.lock id ∧
      mapLookup (step t e).ifaces id = some (lockAttempt st)) ∨
    (∃ st, mapLookup t.ifaces id = some st ∧
      mapLookup (step t e).ifaces id = some (discardSource st)) := by
  cases e with
  | register h =>
    cases hl : mapLookup t.ifaces id with
    | some st =>
      refine Or.inl ?_
      rw [step]
      simp [mapLookup_append, hl]
    | none =>
      by_cases hn : t.nextId = id
      · refine Or.inr (Or.inl ⟨rfl, ?_⟩)
        rw [step]
        simp [mapLookup_append, hl, mapLookup, hn]
      · refine Or.inl ?_
        rw [step]
        simp [mapLookup_append, hl, mapLookup, hn]
  | deliver h ptr len => exact Or.inl rfl
  | microtask =>
    cases hp : t.pending with
    | nil =>
      rw [step_microtask_nil t hp]
      exact Or.inl rfl
    | cons pr rest =>
      obtain ⟨h, f⟩ := pr
      cases hr : mapLookup t.registry h with
      | none =>
        rw [step_microtask_unknown t h f rest hp hr]
        exact Or.inl rfl
      | some id2 =>
        rw [step_microtask_known t h f rest id2 hp hr]
        by_cases hid : id2 = id
        · subst hid
          cases hl : mapLookup t.ifaces id2 with
          | none =>
            refine Or.inl ?_
            simp [mapLookup_mapUpdate_self, hl]
          | some st =>
            refine Or.inr (Or.inr (Or.inl ⟨st, f, rfl, ?_, ?_⟩))
            · simp [pendingFrames, hp]
            · simp [mapLookup_mapUpdate_self, hl]
        · refine Or.inl ?_
          exact mapLookup_mapUpdate_ne _ _ _ _ hid
  | memWrite a v => exact Or.inl rfl
  | lock id2 =>
    rw [step]
    by_cases hid : id2 = id
    · subst hid
      cases hl : mapLookup t.ifaces id2 with
      | none =>
        refine Or.inl ?_
        simp [mapLookup_mapUpdate_self, hl]
      | some st =>
        refine Or.inr (Or.inr (Or.inr (Or.inl ⟨st, rfl, rfl, ?_⟩)))
        simp [mapLookup_mapUpdate_self, hl]
    · refine Or.inl ?_
      exact mapLookup_mapUpdate_ne _ _ _ _ hid
  | discard id2 =>
    rw [step]
    by_cases hid : id2 = id
    · subst hid
      cases hl : mapLookup t.ifaces id2 with
      | none =>
        refine Or.inl ?_
        simp [mapLookup_mapUpdate_self, hl]
      | some st =>
        refine Or.inr (Or.inr (Or.inr (Or.inr ⟨st, rfl, ?_⟩)))
        simp [mapLookup_mapUpdate_self, hl]
    · refine Or.inl ?_
      exact mapLookup_mapUpdate_ne _ _ _ _ hid
  | removeIface id2 => exact Or.inl rfl

theorem queueFrames_of_lookup (s : TapState) (id : Nat) (st : IfaceState)
    (h : mapLookup s.ifaces id = some st) : queueFrames s id = st.queue := by
  simp [queueFrames, h]

theorem queueFrames_of_none (s : TapState) (id : Nat)
    (h : mapLookup s.ifaces id = none) : queueFrames s id = [] := by
  simp [queueFrames, h]

/-- While the frame source of an interface has never been acquired, its
listening flag is false and its readable queue is empty. -/
def listenFree (id : Nat) (t : TapState) : Prop :=
  ∀ st, mapLookup t.ifaces id = some st → st.isListening = false ∧ st.queue = []

theorem listenFree_step (id : Nat) (t : TapState) (e : Event)
    (hinv : listenFree id t) (he : e ≠ Event.lock id) : listenFree id (step t e) := by
  intro st hst
  rcases mapLookup_step_ifaces t e id with
    heq | ⟨hn, hnew⟩ | ⟨st0, f, hl, hf, hnew⟩ | ⟨st0, hl, hee, hnew⟩ | ⟨st0, hl, hnew⟩
  · rw [heq] at hst
    exact hinv st hst
  · rw [hnew] at hst
    cases hst
    exact ⟨rfl, rfl⟩
  · rw [hnew] at hst
    cases hst
    obtain ⟨h1, h2⟩ := hinv st0 hl
    rw [receiveFrameHook_of_not_listening st0 f h1]
    exact ⟨h1, h2⟩
  · exact absurd hee he
  · rw [hnew] at hst
    cases hst
    obtain ⟨h1, h2⟩ := hinv st0 hl
    simpa [discardSource] using ⟨h1, h2⟩

theorem listenFree_run (id : Nat) (t : TapState) (l : List Event)
    (hinv : listenFree id t) (hok : ∀ e ∈ l, e ≠ Event.lock id) :
    listenFree id (run t l) :=
  run_preserves (listenFree id) (fun e => e ≠ Event.lock id)
    (fun t e hi ho => listenFree_step id t e hi ho) l t hinv hok

theorem pendingFrames_step_deliver (s : TapState) (h ptr len : Nat) :
    pendingFrames (step s (Event.deliver h ptr len)) =
      pendingFrames s ++ [copyFromMemory s.mem ptr len] := by
  simp [pendingFrames, step]

theorem step_provenance (s : TapState) (e : Event) (id : Nat) (f : Frame)
    (h : f ∈ queueFrames (step s e) id ∨ f ∈ pendingFrames (step s e)) :
    f ∈ queueFrames s id ∨ f ∈ pendingFrames s ∨
      (∃ hd p n, e = Event.deliver hd p n ∧ f = copyFromMemory s.mem p n) := by
  rcases h with hq | hp
  · rcases mapLookup_step_ifaces s e id with
      heq | ⟨hn, hnew⟩ | ⟨st0, f0, hl, hf0, hnew⟩ | ⟨st0, hl, hee, hnew⟩ | ⟨st0, hl, hnew⟩
    · rw [queueFrames, heq] at hq
      left
      rw [queueFrames]
      exact hq
    · rw [queueFrames_of_lookup _ _ _ hnew] at hq
      simp [IfaceState.fresh] at hq
    · rw [queueFrames_of_lookup _ _ _ hnew] at hq
      rcases receiveFrameHook_queue st0 f0 with hcase | hcase
      · rw [hcase] at hq
        left
        rw [queueFrames_of_lookup _ _ _ hl]
        exact hq
      · rw [hcase, List.mem_append] at hq
        rcases hq with hq | hq
        · left
          rw [queueFrames_of_lookup _ _ _ hl]
          exact hq
        · right; left
          rw [List.mem_singleton] at hq
          rw [hq]
          exact hf0
    · rw [queueFrames_of_lookup _ _ _ hnew, lockAttempt_queue] at hq
      left
      rw [queueFrames_of_lookup _ _ _ hl]
      exact hq
    · rw [queueFrames_of_lookup _ _ _ hnew] at hq
      simp only [discardSource] at hq
      left
      rw [queueFrames_of_lookup _ _ _ hl]
      exact hq
  · cases e with
    | register h => exact Or.inr (Or.inl hp)
    | deliver hd p n =>
      rw [pendingFrames_step_deliver, List.mem_append] at hp
      rcases hp with hp | hp
      · exact Or.inr (Or.inl hp)
      · rw [List.mem_singleton] at hp
        exact Or.inr (Or.inr ⟨hd, p, n, rfl, hp⟩)
    | microtask =>
      cases hpd : s.pending with
      | nil =>
        rw [step_microtask_nil s hpd] at hp
        exact Or.inr (Or.inl hp)
      | cons pr rest =>
        obtain ⟨hd, f0⟩ := pr
        have hsub : f ∈ pendingFrames s := by
          have hrest : f ∈ rest.map Prod.snd → f ∈ pendingFrames s := by
            intro hx
            rw [pendingFrames, hpd]
            exact List.mem_cons_of_mem _ hx
          cases hr : mapLookup s.registry hd with
          | none =>
            rw [step_microtask_unknown s hd f0 rest hpd hr] at hp
            exact hrest hp
          | some id2 =>
            rw [step_microtask_known s hd f0 rest id2 hpd hr] at hp
            exact hrest hp
        exact Or.inr (Or.inl hsub)
    | memWrite a v => exact Or.inr (Or.inl hp)
    | lock id2 => exact Or.inr (Or.inl hp)
    | discard id2 => exact Or.inr (Or.inl hp)
    | removeIface id2 => exact Or.inr (Or.inl hp)

theorem run_provenance (id : Nat) (f : Frame) :
    ∀ (l : List Event) (s : TapState),
      (f ∈ queueFrames (run s l) id ∨ f ∈ pendingFrames (run s l)) →
      f ∈ queueFrames s id ∨ f ∈ pendingFrames s ∨ copiedIn s l f = true := by
  intro l
  induction l with
  | nil =>
    intro s h
    rcases h with h | h
    · exact Or.inl h
    · exact Or.inr (Or.inl h)
  | cons e l ih =>
    intro s h
    rcases ih (step s e) h with h1 | h1 | h1
    · rcases step_provenance s e id f (Or.inl h1) with h2 | h2 | ⟨hd, p, n, he, hf⟩
      · exact Or.inl h2
      · exact Or.inr (Or.inl h2)
      · subst he
        refine Or.inr (Or.inr ?_)
        simp [copiedIn, hf]
    · rcases step_provenance s e id f (Or.inr h1) with h2 | h2 | ⟨hd, p, n, he, hf⟩
      · exact Or.inl h2
      · exact Or.inr (Or.inl h2)
      · subst he
        refine Or.inr (Or.inr ?_)
        simp [copiedIn, hf]
    · refine Or.inr (Or.inr ?_)
      simp [copiedIn, h1]

/-- Every interface object ever stored in the Registry has its readable
stream controller assigned (the stream's start callback runs during
construction, before the interface becomes reachable). -/
def controllerAssigned (t : TapState) : Prop :=
  ∀ id st, mapLookup t.ifaces id = some st → st.controllerInit = true

theorem controllerAssigned_step (t : TapState) (e : Event)
    (h : controllerAssigned t) : controllerAssigned (step t e) := by
  intro id st hst
  rcases mapLookup_step_ifaces t e id with
    heq | ⟨hn, hnew⟩ | ⟨st0, f, hl, hf, hnew⟩ | ⟨st0, hl, hee, hnew⟩ | ⟨st0, hl, hnew⟩
  · rw [heq] at hst
    exact h id st hst
  · rw [hnew] at hst
    cases hst
    rfl
  · rw [hnew] at hst
    cases hst
    rw [(receiveFrameHook_flags st0 f).2.1]
    exact h id st0 hl
  · rw [hnew] at hst
    cases hst
    rw [lockAttempt_controllerInit]
    exact h id st0 hl
  · rw [hnew] at hst
    cases hst
    simpa [discardSource] using h id st0 hl

theorem mapLookup_step_registry (t : TapState) (e : Event) (h0 id : Nat)
    (hreg : mapLookup t.registry h0 = some id)
    (hne : ∀ id2, e = Event.removeIface id2 → id ≠ id2)
    (hnr : ∀ h, e = Event.register h → h ≠ h0) :
    mapLookup (step t e).registry h0 = some id := by
  cases e with
  | register h =>
    rw [step]
    rw [mapLookup_mapSet_ne t.registry h h0 t.nextId (hnr h rfl)]
    exact hreg
  | deliver hd p n => exact hreg
  | microtask =>
    cases hp : t.pending with
    | nil =>
      rw [step_microtask_nil t hp]
      exact hreg
    | cons pr rest =>
      obtain ⟨h, f⟩ := pr
      cases hr : mapLookup t.registry h with
      | none =>
        rw [step_microtask_unknown t h f rest hp hr]
        exact hreg
      | some id2 =>
        rw [step_microtask_known t h f rest id2 hp hr]
        exact hreg
  | memWrite a v => exact hreg
  | lock id2 => exact hreg
  | discard id2 => exact hreg
  | removeIface id2 =>
    rw [step]
    exact mapLookup_mapDeleteByVal t.registry h0 id id2 hreg (hne id2 rfl)

/-- After the consumer has discarded the frame source of a registered
interface, the source stays closed, the readable queue never changes, and
the Registry entry survives (until an explicit remove). -/
def closedStable (id h0 : Nat) (q0 : List Frame) (t : TapState) : Prop :=
  (∃ st, mapLookup t.ifaces id = some st ∧ st.sourceClosed = true ∧ st.queue = q0) ∧
  mapLookup t.registry h0 = some id

theorem closedStable_step (id h0 : Nat) (q0 : List Frame) (t : TapState) (e : Event)
    (hinv : closedStable id h0 q0 t)
    (he : e ≠ Event.removeIface id ∧ e ≠ Event.register h0) :
    closedStable id h0 q0 (step t e) := by
  obtain ⟨⟨st, hl, hc, hq⟩, hreg⟩ := hinv
  constructor
  · rcases mapLookup_step_ifaces t e id with
      heq | ⟨hn, hnew⟩ | ⟨st0, f, hl0, hf, hnew⟩ | ⟨st0, hl0, hee, hnew⟩ | ⟨st0, hl0, hnew⟩
    · exact ⟨st, heq ▸ hl, hc, hq⟩
    · rw [hn] at hl
      cases hl
    · rw [hl] at hl0
      cases hl0
      rw [receiveFrameHook_fst_of_closed st f hc] at hnew
      exact ⟨st, hnew, hc, hq⟩
    · rw [hl] at hl0
      cases hl0
      refine ⟨lockAttempt st, hnew, ?_, ?_⟩
      · rw [lockAttempt_sourceClosed]
        exact hc
      · rw [lockAttempt_queue]
        exact hq
    · rw [hl] at hl0
      cases hl0
      refine ⟨discardSource st, hnew, ?_, ?_⟩
      · simp [discardSource]
      · simpa [discardSource] using hq
  · refine mapLookup_step_registry t e h0 id hreg ?_ ?_
    · intro id2 he2
      intro hid
      exact he.1 (by rw [he2, hid])
    · intro h he2
      intro hh
      exact he.2 (by rw [he2, hh])

theorem receiveFrameHook_snd_ne_noController (st : IfaceState) (f : Frame)
    (h : st.controllerInit = true) :
    (receiveFrameHook st f).2 ≠ DispatchOutcome.errNoController := by
  unfold receiveFrameHook
  split
  · intro hx
    cases hx
  · split
    · simp_all
    · split
      · intro hx
        cases hx
      · intro hx
        cases hx

/-- Claim C1: for an interface whose frame source has never been acquired
(listening flag false), every inbound frame dispatched by the Binding Core
is discarded without being buffered: the interface's queue stays empty
through every prefix of the run, and a frame that is neither still pending
nor copied out of memory by a later delivery is never observable from the
frame source after the source is acquired. -/
theorem c1_unacquired_frames_dropped
    (s : TapState) (id : Nat) (st : IfaceState) (es es2 : List Event) (f : Frame)
    (hreg : mapLookup s.ifaces id = some st)
    (hlisten : st.isListening = false)
    (hq : st.queue = [])
    (hnolock : ∀ e ∈ es, e ≠ Event.lock id)
    (hpend : f ∉ pendingFrames (run s es))
    (hcopy : copiedIn (run s es) es2 f = false) :
    (∀ p q : List Event, es = p ++ q → queueFrames (run s p) id = []) ∧
    f ∉ queueFrames (run s (es ++ es2)) id := by
  have hlf : listenFree id s := by
    intro st2 h2
    rw [hreg] at h2
    cases h2
    exact ⟨hlisten, hq⟩
  have hclause1 : ∀ p q : List Event, es = p ++ q → queueFrames (run s p) id = [] := by
    intro p q hpq
    have hokp : ∀ e ∈ p, e ≠ Event.lock id := by
      intro e hep
      refine hnolock e ?_
      rw [hpq]
      exact List.mem_append_left q hep
    have hinv := listenFree_run id s p hlf hokp
    cases hlk : mapLookup (run s p).ifaces id with
    | none => exact queueFrames_of_none _ _ hlk
    | some st2 =>
      rw [queueFrames_of_lookup _ _ _ hlk]
      exact (hinv st2 hlk).2
  refine ⟨hclause1, ?_⟩
  intro hmem
  rw [run_append] at hmem
  rcases run_provenance id f es2 (run s es) (Or.inl hmem) with h1 | h1 | h1
  · rw [hclause1 es [] (List.append_nil es).symm] at h1
    exact List.not_mem_nil f h1
  · exact hpend h1
  · rw [hcopy] at h1
    exact Bool.false_ne_true h1

theorem c1_witness :
    (∀ p q : List Event, [Event.deliver 0 0 1, Event.microtask] = p ++ q →
      queueFrames (run (run initState [Event.register 0]) p) 0 = []) ∧
    [0] ∉ queueFrames (run (run initState [Event.register 0])
      ([Event.deliver 0 0 1, Event.microtask] ++ [Event.lock 0, Event.microtask])) 0 :=
  c1_unacquired_frames_dropped (run initState [Event.register 0]) 0 IfaceState.fresh
    [Event.deliver 0 0 1, Event.microtask] [Event.lock 0, Event.microtask] [0]
    (by decide) (by decide) (by decide) (by decide) (by decide) (by decide)

/-- Claim C2: once the consumer has discarded the frame source of a
registered interface, every later inbound frame is dropped and never
enqueued onto the frame source (the readable queue never changes), while
the Registry entry for the interface persists as long as no explicit
remove happens (frame conditions: no remove of this interface and no
re-register of its handle). -/
theorem c2_discarded_source_drops_frames
    (s : TapState) (id h0 : Nat) (st : IfaceState) (es : List Event)
    (hif : mapLookup s.ifaces id = some st)
    (hclosed : st.sourceClosed = true)
    (hreg : mapLookup s.registry h0 = some id)
    (hok : ∀ e ∈ es, e ≠ Event.removeIface id ∧ e ≠ Event.register h0) :
    ∀ p q : List Event, es = p ++ q →
      (∃ st2, mapLookup (run s p).ifaces id = some st2 ∧
        st2.sourceClosed = true ∧ st2.queue = st.queue) ∧
      mapLookup (run s p).registry h0 = some id := by
  intro p q hpq
  have hokp : ∀ e ∈ p, e ≠ Event.removeIface id ∧ e ≠ Event.register h0 := by
    intro e hep
    refine hok e ?_
    rw [hpq]
    exact List.mem_append_left q hep
  exact run_preserves (closedStable id h0 st.queue)
    (fun e => e ≠ Event.removeIface id ∧ e ≠ Event.register h0)
    (fun t e hi ho => closedStable_step id h0 st.queue t e hi ho)
    p s ⟨⟨st, hif, hclosed, rfl⟩, hreg⟩ hokp

/-- The interface state after listening was acquired and the source then
discarded, used as a concrete instance below. -/
def discardedIface : IfaceState :=
  discardSource (acquireReader IfaceState.fresh)

theorem c2_witness :
    (∃ st2, mapLookup (run (run initState
        [Event.register 0, Event.lock 0, Event.discard 0])
        [Event.deliver 0 5 2, Event.microtask]).ifaces 0 = some st2 ∧
      st2.sourceClosed = true ∧
      st2.queue = discardedIface.queue) ∧
    mapLookup (run (run initState
      [Event.register 0, Event.lock 0, Event.discard 0])
      [Event.deliver 0 5 2, Event.microtask]).registry 0 = some 0 :=
  c2_discarded_source_drops_frames
    (run initState [Event.register 0, Event.lock 0, Event.discard 0]) 0 0
    discardedIface
    [Event.deliver 0 5 2, Event.microtask]
    (by decide) (by decide) (by decide) (by decide)
    [Event.deliver 0 5 2, Event.microtask] [] (List.append_nil _).symm

/-- Claim C10: in every reachable state of the binding layer, each
registered interface has its readable-stream controller assigned (the
stream's start callback ran during construction), so the inner receiveFrame
hook can never take the readable-stream-not-initialized error branch when
the listening flag is true. -/
theorem c10_controller_always_assigned (es : List Event) :
    (∀ id st, mapLookup (run initState es).ifaces id = some st →
      st.controllerInit = true) ∧
    (∀ id st f, mapLookup (run initState es).ifaces id = some st →
      st.isListening = true →
      (receiveFrameHook st f).2 ≠ DispatchOutcome.errNoController) := by
  have hca : controllerAssigned (run initState es) := by
    refine run_preserves controllerAssigned (fun _ => True)
      (fun t e hi _ => controllerAssigned_step t e hi) es initState ?_ ?_
    · intro id st h
      simp [initState, mapLookup] at h
    · intro e _
      trivial
  refine ⟨hca, ?_⟩
  intro id st f h _
  exact receiveFrameHook_snd_ne_noController st f (hca id st h)

theorem c10_witness :
    (receiveFrameHook (acquireReader IfaceState.fresh) [1, 2]).2 ≠
      DispatchOutcome.errNoController :=
  (c10_controller_always_assigned [Event.register 3, Event.lock 0]).2 0
    (acquireReader IfaceState.fresh) [1, 2] (by decide) (by decide)

theorem run_memWrites_frame :
    ∀ ws : List Event, (∀ e ∈ ws, e.isMemWrite = true) →
      ∀ s : TapState, (run s ws).pending = s.pending ∧
        (run s ws).ifaces = s.ifaces ∧ (run s ws).registry = s.registry := by
  intro ws
  induction ws with
  | nil => intro _ s; exact ⟨rfl, rfl, rfl⟩
  | cons e l ih =>
    intro hws s
    have he := hws e (List.mem_cons_self e l)
    cases e with
    | memWrite a v =>
      obtain ⟨h1, h2, h3⟩ :=
        ih (fun x hx => hws x (List.mem_cons_of_mem _ hx)) (step s (Event.memWrite a v))
      exact ⟨h1, h2, h3⟩
    | register h => simp [Event.isMemWrite] at he
    | deliver h ptr len => simp [Event.isMemWrite] at he
    | microtask => simp [Event.isMemWrite] at he
    | lock id => simp [Event.isMemWrite] at he
    | discard id => simp [Event.isMemWrite] at he
    | removeIface id => simp [Event.isMemWrite] at he

/-- Claim C3: receive_frame copies the bytes out of foreign memory
synchronously during the engine's call, before the mandatory deferral; no
interface receives anything during the call itself; foreign-memory writes
between the call and the deferred dispatch change neither the pending copy
nor any interface; and the deferred dispatch hands the matching interface
exactly the copy taken at call time — a fresh value independent of the
foreign buffer. -/
theorem c3_receive_copies_before_deferral
    (s : TapState) (h ptr len : Nat) (ws : List Event)
    (hws : ∀ e ∈ ws, e.isMemWrite = true) :
    (step s (Event.deliver h ptr len)).pending =
      s.pending ++ [(h, copyFromMemory s.mem ptr len)] ∧
    (step s (Event.deliver h ptr len)).ifaces = s.ifaces ∧
    (run (step s (Event.deliver h ptr len)) ws).pending =
      s.pending ++ [(h, copyFromMemory s.mem ptr len)] ∧
    (run (step s (Event.deliver h ptr len)) ws).ifaces = s.ifaces ∧
    (s.pending = [] → ∀ id st,
      mapLookup (run (step s (Event.deliver h ptr len)) ws).registry h = some id →
      mapLookup (run (step s (Event.deliver h ptr len)) ws).ifaces id = some st →
      mapLookup
        (step (run (step s (Event.deliver h ptr len)) ws) Event.microtask).ifaces id =
        some (receiveFrameHook st (copyFromMemory s.mem ptr len)).1) := by
  obtain ⟨hp, hi, hr⟩ := run_memWrites_frame ws hws (step s (Event.deliver h ptr len))
  refine ⟨rfl, rfl, hp, hi, ?_⟩
  intro hnil id st hrid hrst
  have hpt : (run (step s (Event.deliver h ptr len)) ws).pending =
      (h, copyFromMemory s.mem ptr len) :: [] := by
    rw [hp]
    show s.pending ++ [(h, copyFromMemory s.mem ptr len)] =
      (h, copyFromMemory s.mem ptr len) :: []
    rw [hnil]
    rfl
  rw [step_microtask_known _ h (copyFromMemory s.mem ptr len) [] id hpt hrid]
  have : mapLookup
      (mapUpdate (run (step s (Event.deliver h ptr len)) ws).ifaces id
        (fun st2 => (receiveFrameHook st2 (copyFromMemory s.mem ptr len)).1)) id =
      (mapLookup (run (step s (Event.deliver h ptr len)) ws).ifaces id).map
        (fun st2 => (receiveFrameHook st2 (copyFromMemory s.mem ptr len)).1) :=
    mapLookup_mapUpdate_self _ _ _
  rw [this, hrst]
  rfl

theorem c3_witness :
    (step (run initState [Event.register 5]) (Event.deliver 5 0 2)).pending =
      (run initState [Event.register 5]).pending ++
        [(5, copyFromMemory (run initState [Event.register 5]).mem 0 2)] ∧
    (step (run initState [Event.register 5]) (Event.deliver 5 0 2)).ifaces =
      (run initState [Event.register 5]).ifaces ∧
    (run (step (run initState [Event.register 5]) (Event.deliver 5 0 2))
        [Event.memWrite 0 9]).pending =
      (run initState [Event.register 5]).pending ++
        [(5, copyFromMemory (run initState [Event.register 5]).mem 0 2)] ∧
    (run (step (run initState [Event.register 5]) (Event.deliver 5 0 2))
        [Event.memWrite 0 9]).ifaces = (run initState [Event.register 5]).ifaces ∧
    ((run initState [Event.register 5]).pending = [] → ∀ id st,
      mapLookup (run (step (run initState [Event.register 5]) (Event.deliver 5 0 2))
        [Event.memWrite 0 9]).registry 5 = some id →
      mapLookup (run (step (run initState [Event.register 5]) (Event.deliver 5 0 2))
        [Event.memWrite 0 9]).ifaces id = some st →
      mapLookup
        (step (run (step (run initState [Event.register 5]) (Event.deliver 5 0 2))
          [Event.memWrite 0 9]) Event.microtask).ifaces id =
        some (receiveFrameHook st
          (copyFromMemory (run initState [Event.register 5]).mem 0 2)).1) :=
  c3_receive_copies_before_deferral (run initState [Event.register 5]) 5 0 2
    [Event.memWrite 0 9] (by decide)

/-- Claim C4: acquiring an unlocked frame source through the iteration
accessor succeeds, locking the stream and setting the listening flag; a
second acquisition while the stream is still locked fails with
AlreadyListening. -/
theorem c4_second_listen_fails (st : IfaceState) (h : st.locked = false) :
    VirtualTapInterface.listen st = Except.ok (acquireReader st) ∧
    VirtualTapInterface.listen (acquireReader st) =
      Except.error TapErr.alreadyListening := by
  constructor
  · simp [VirtualTapInterface.listen, h]
  · simp [VirtualTapInterface.listen, acquireReader]

theorem c4_witness :
    VirtualTapInterface.listen IfaceState.fresh =
      Except.ok (acquireReader IfaceState.fresh) ∧
    VirtualTapInterface.listen (acquireReader IfaceState.fresh) =
      Except.error TapErr.alreadyListening :=
  c4_second_listen_fails IfaceState.fresh (by decide)

/-- Claim C5: the Binding Core's send fails with SendFailed carrying the
engine's status code exactly when that code differs from the success code;
the sink's write catches any such failure, logs it, leaves the sink open
and surfaces nothing to the writer. -/
theorem c5_send_failures_contained
    (engineSend : Frame → Int) (frame : Frame) (sink : SinkState) :
    (∀ code : Int,
      sendFrameHook engineSend frame = Except.error (TapErr.sendFailed code) ↔
        (engineSend frame ≠ ERR_OK ∧ code = engineSend frame)) ∧
    (engineSend frame = ERR_OK ↔ sendFrameHook engineSend frame = Except.ok ()) ∧
    (writableWrite engineSend frame sink).closed = sink.closed ∧
    (engineSend frame ≠ ERR_OK →
      (writableWrite engineSend frame sink).log =
        sink.log ++ ["tap interface send failed"]) ∧
    (engineSend frame = ERR_OK → (writableWrite engineSend frame sink).log = sink.log) := by
  by_cases h : engineSend frame = ERR_OK
  · refine ⟨?_, ?_, ?_, ?_, ?_⟩ <;> simp [sendFrameHook, writableWrite, h]
  · refine ⟨?_, ?_, ?_, ?_, ?_⟩ <;> simp [sendFrameHook, writableWrite, h]
    intro code
    constructor
    · intro hx
      exact hx.symm
    · intro hx
      exact hx.symm

/-- Empty sink used as a concrete instance below. -/
def emptySink : SinkState :=
  { closed := false, log := [] }

theorem c5_witness :
    (writableWrite (fun _ => (-1 : Int)) [1] emptySink).log =
      emptySink.log ++ ["tap interface send failed"] :=
  (c5_send_failures_contained (fun _ => (-1 : Int)) [1] emptySink).2.2.2.1 (by decide)

/-- Claim C8: a deferred Receive dispatch whose handle matches no interface
in the Registry drops the frame, logs the unknown-interface message, pops
the deferred queue, and leaves both the Registry and every interface
untouched; no error is raised to the engine or to any consumer. -/
theorem c8_unknown_handle_drop_logged
    (s : TapState) (h : Nat) (f : Frame) (rest : List (Nat × Frame))
    (hp : s.pending = (h, f) :: rest)
    (hu : mapLookup s.registry h = none) :
    (step s Event.microtask).registry = s.registry ∧
    (step s Event.microtask).ifaces = s.ifaces ∧
    (step s Event.microtask).pending = rest ∧
    (step s Event.microtask).log =
      s.log ++ ["received frame on unknown tap interface"] := by
  rw [step_microtask_unknown s h f rest hp hu]
  exact ⟨rfl, rfl, rfl, rfl⟩

theorem c8_witness :
    (step (step initState (Event.deliver 7 0 2)) Event.microtask).registry =
      (step initState (Event.deliver 7 0 2)).registry ∧
    (step (step initState (Event.deliver 7 0 2)) Event.microtask).ifaces =
      (step initState (Event.deliver 7 0 2)).ifaces ∧
    (step (step initState (Event.deliver 7 0 2)) Event.microtask).pending = [] ∧
    (step (step initState (Event.deliver 7 0 2)) Event.microtask).log =
      (step initState (Event.deliver 7 0 2)).log ++
        ["received frame on unknown tap interface"] :=
  c8_unknown_handle_drop_logged (step initState (Event.deliver 7 0 2)) 7
    (copyFromMemory initState.mem 0 2) [] (by decide) (by decide)

/-- One engine-initiated registration, as performed synchronously while the
engine executes create_tap_interface. -/
def registerStep (s : TapState) (h : Nat) : TapState :=
  step s (Event.register h)

/-- TapBindings.create after the codec and marshalling steps: the engine's
create operation (during which the engine registers the handles in
engineRegs through register_tap_interface) returns the handle ret, which is
then resolved through the Registry; an unknown handle means the engine
never registered it and create throws RegistrationFailed, otherwise create
returns exactly the interface object the Registry maps the handle to. -/
def TapBindings.create (s : TapState) (engineRegs : List Nat) (ret : Nat) :
    TapState × Except TapErr Nat :=
  let s2 := engineRegs.foldl registerStep s
  match mapLookup s2.registry ret with
  | none => (s2, Except.error TapErr.registrationFailed)
  | some id => (s2, Except.ok id)

theorem registerFold_lookup_pres (regs : List Nat) :
    ∀ (s : TapState) (ret id : Nat), mapLookup s.registry ret = some id →
      ∃ id2, mapLookup (regs.foldl registerStep s).registry ret = some id2 := by
  induction regs with
  | nil => intro s ret id h; exact ⟨id, h⟩
  | cons r rest ih =>
    intro s ret id h
    by_cases hr : r = ret
    · subst hr
      refine ih (registerStep s r) r s.nextId ?_
      exact mapLookup_mapSet_self s.registry r s.nextId
    · refine ih (registerStep s r) ret id ?_
      rw [registerStep, step, mapLookup_mapSet_ne s.registry r ret s.nextId hr]
      exact h

theorem registerFold_mem (regs : List Nat) :
    ∀ (s : TapState) (ret : Nat), ret ∈ regs →
      ∃ id, mapLookup (regs.foldl registerStep s).registry ret = some id := by
  induction regs with
  | nil => intro s ret h; cases h
  | cons r rest ih =>
    intro s ret h
    rcases List.mem_cons.mp h with hr | hr
    · subst hr
      refine registerFold_lookup_pres rest (registerStep s ret) ret s.nextId ?_
      exact mapLookup_mapSet_self s.registry ret s.nextId
    · exact ih (registerStep s r) ret hr

theorem registerFold_not_mem (regs : List Nat) :
    ∀ (s : TapState) (ret : Nat), ret ∉ regs →
      mapLookup (regs.foldl registerStep s).registry ret = mapLookup s.registry ret := by
  induction regs with
  | nil => intro s ret _; rfl
  | cons r rest ih =>
    intro s ret h
    have hr : r ≠ ret := fun hx => h (hx ▸ List.mem_cons_self r rest)
    have hrest : ret ∉ rest := fun hx => h (List.mem_cons_of_mem r hx)
    rw [List.foldl_cons, ih (registerStep s r) ret hrest, registerStep, step]
    exact mapLookup_mapSet_ne s.registry r ret s.nextId hr

/-- Claim C6: create fails with RegistrationFailed exactly when the handle
returned by the engine's create operation has no Registry entry (in
particular whenever the engine never registered it and it was not already
registered), and otherwise returns exactly the interface object the
Registry maps that handle to (in particular it succeeds whenever the
engine registered the returned handle during the call). -/
theorem c6_create_resolves_through_registry
    (s : TapState) (regs : List Nat) (ret : Nat) :
    (mapLookup ((TapBindings.create s regs ret).1).registry ret = none →
      (TapBindings.create s regs ret).2 = Except.error TapErr.registrationFailed) ∧
    (∀ id, mapLookup ((TapBindings.create s regs ret).1).registry ret = some id →
      (TapBindings.create s regs ret).2 = Except.ok id) ∧
    (ret ∈ regs → ∃ id, (TapBindings.create s regs ret).2 = Except.ok id) ∧
    (ret ∉ regs → mapLookup s.registry ret = none →
      (TapBindings.create s regs ret).2 = Except.error TapErr.registrationFailed) := by
  refine ⟨?_, ?_, ?_, ?_⟩
  · intro h
    rw [TapBindings.create] at h ⊢
    cases hl : mapLookup (regs.foldl registerStep s).registry ret with
    | none => simp [hl]
    | some id => simp [hl] at h
  · intro id h
    rw [TapBindings.create] at h ⊢
    cases hl : mapLookup (regs.foldl registerStep s).registry ret with
    | none => simp [hl] at h
    | some id2 =>
      simp [hl] at h ⊢
      exact h
  · intro h
    obtain ⟨id, hid⟩ := registerFold_mem regs s ret h
    refine ⟨id, ?_⟩
    rw [TapBindings.create]
    simp [hid]
  · intro h hnone
    have hsome : mapLookup (regs.foldl registerStep s).registry ret = none := by
      rw [registerFold_not_mem regs s ret h]
      exact hnone
    rw [TapBindings.create]
    simp [hsome]

theorem c6_witness :
    ∃ id, (TapBindings.create initState [3] 3).2 = Except.ok id :=
  (c6_create_resolves_through_registry initState [3] 3).2.2.1 (by decide)

/-- Effects of TapBindings.remove, in the order they are performed. -/
inductive RemoveEffect
  | engineFree (handle : Nat)
  | deleteMapping (handle : Nat)
deriving DecidableEq, Repr

/-- TapBindings.remove: iterate over the Registry entries; at the first
entry whose interface object equals the argument, instruct the engine to
free the handle, then delete the local mapping and return; reaching the end
without a match does nothing.  Returns the new Registry together with the
trace of effects performed. -/
def TapBindings.remove : List (Nat × Nat) → Nat → List (Nat × Nat) × List RemoveEffect
  | [], _ => ([], [])
  | (h, v) :: rest, iface =>
    if v = iface then
      (rest, [RemoveEffect.engineFree h, RemoveEffect.deleteMapping h])
    else
      let r := TapBindings.remove rest iface
      ((h, v) :: r.1, r.2)

/-- Claim C7: removing an interface with no Registry entry is a no-op — the
Registry is unchanged and the engine is never called (and the total
function cannot throw); when an entry exists, remove performs exactly the
engine free followed by the local-mapping delete for the reverse-looked-up
handle, and the Registry loses exactly that entry. -/
theorem c7_remove_noop_or_free_then_delete (reg : List (Nat × Nat)) (iface : Nat) :
    (reverseLookup reg iface = none →
      TapBindings.remove reg iface = (reg, [])) ∧
    (∀ h, reverseLookup reg iface = some h →
      TapBindings.remove reg iface =
        (mapDeleteByVal reg iface,
          [RemoveEffect.engineFree h, RemoveEffect.deleteMapping h])) := by
  induction reg with
  | nil =>
    constructor
    · intro _
      rfl
    · intro h hx
      simp [reverseLookup] at hx
  | cons p rest ih =>
    obtain ⟨h1, v1⟩ := p
    by_cases hv : v1 = iface
    · constructor
      · intro hx
        rw [reverseLookup, if_pos hv] at hx
        cases hx
      · intro h hx
        rw [reverseLookup, if_pos hv] at hx
        cases hx
        rw [TapBindings.remove, if_pos hv, mapDeleteByVal, if_pos hv]
    · constructor
      · intro hx
        rw [reverseLookup, if_neg hv] at hx
        rw [TapBindings.remove, if_neg hv, ih.1 hx]
      · intro h hx
        rw [reverseLookup, if_neg hv] at hx
        rw [TapBindings.remove, if_neg hv, ih.2 h hx, mapDeleteByVal, if_neg hv]

theorem c7_witness :
    TapBindings.remove [(1, 5), (2, 6)] 6 =
      ([(1, 5)], [RemoveEffect.engineFree 2, RemoveEffect.deleteMapping 2]) :=
  (c7_remove_noop_or_free_then_delete [(1, 5), (2, 6)] 6).2 2 (by decide)

/-- The eight bits of one byte, most significant first. -/
def byteBits (b : Nat) : List Bool :=
  (List.range 8).map (fun i => b.testBit (7 - i))

/-- All bits of a byte sequence, most significant bit of the first byte
first. -/
def bytesToBits : List Nat → List Bool
  | [] => []
  | b :: rest => byteBits b ++ bytesToBits rest

/-- Number of leading one-bits. -/
def countLeadingOnes : List Bool → Nat
  | true :: rest => countLeadingOnes rest + 1
  | _ => 0

/-- Whether the bit pattern consists of ones followed only by zeros. -/
def contiguousBits : List Bool → Bool
  | [] => true
  | true :: rest => contiguousBits rest
  | false :: rest => rest.all (fun b => !b)

/-- Modelled from the spec: the implementation of getPrefixLength (the wire
codec source file packages/wire/src/ipv4.ts) is not among the available
sources, only its test file is.  Per the spec, getPrefixLength counts the
leading one-bits of the 4 netmask bytes and fails with NonContiguousBits
when, scanning all 32 bits most-significant-bit first, some zero bit
precedes a one bit. -/
def getPrefixLength (bytes : List Nat) : Except TapErr Nat :=
  let bits := bytesToBits bytes
  if contiguousBits bits then Except.ok (countLeadingOnes bits)
  else Except.error TapErr.nonContiguousBits

theorem all_false_eq_replicate :
    ∀ l : List Bool, l.all (fun b => !b) = true → l = List.replicate l.length false := by
  intro l
  induction l with
  | nil => intro _; rfl
  | cons b rest ih =>
    intro h
    rw [List.all_cons, Bool.and_eq_true] at h
    have hb : b = false := by
      cases b
      · rfl
      · cases h.1
    subst hb
    rw [List.length_cons, List.replicate_succ]
    rw [ih h.2]
    simp

theorem contiguousBits_replicate (k m : Nat) :
    contiguousBits (List.replicate k true ++ List.replicate m false) = true := by
  induction k with
  | zero =>
    simp only [List.replicate, List.nil_append]
    cases m with
    | zero => rfl
    | succ m2 =>
      rw [List.replicate_succ]
      show (List.replicate m2 false).all (fun b => !b) = true
      simp [List.all_eq_true, List.mem_replicate]
  | succ k2 ih =>
    rw [List.replicate_succ, List.cons_append, contiguousBits]
    exact ih

theorem countLeadingOnes_replicate (k m : Nat) :
    countLeadingOnes (List.replicate k true ++ List.replicate m false) = k := by
  induction k with
  | zero =>
    simp only [List.replicate, List.nil_append]
    cases m with
    | zero => rfl
    | succ m2 =>
      rw [List.replicate_succ]
      rfl
  | succ k2 ih =>
    rw [List.replicate_succ, List.cons_append, countLeadingOnes, ih]

theorem countLeadingOnes_le_length : ∀ l : List Bool, countLeadingOnes l ≤ l.length := by
  intro l
  induction l with
  | nil => exact Nat.le_refl 0
  | cons b rest ih =>
    cases b
    · exact Nat.zero_le _
    · show countLeadingOnes rest + 1 ≤ rest.length + 1
      exact Nat.succ_le_succ ih

theorem contiguous_eq_replicate :
    ∀ l : List Bool, contiguousBits l = true →
      l = List.replicate (countLeadingOnes l) true ++
        List.replicate (l.length - countLeadingOnes l) false := by
  intro l
  induction l with
  | nil => intro _; rfl
  | cons b rest ih =>
    intro h
    cases b
    · have h2 : (rest.all fun b => !b) = true := h
      show false :: rest = List.replicate (rest.length + 1) false
      rw [List.replicate_succ]
      exact congrArg (List.cons false) (all_false_eq_replicate rest h2)
    · have h2 : contiguousBits rest = true := h
      show true :: rest =
        List.replicate (countLeadingOnes rest + 1) true ++
          List.replicate (rest.length + 1 - (countLeadingOnes rest + 1)) false
      rw [Nat.succ_sub_succ, List.replicate_succ, List.cons_append]
      exact congrArg (List.cons true) (ih h2)

theorem length_bytesToBits : ∀ l : List Nat, (bytesToBits l).length = 8 * l.length := by
  intro l
  induction l with
  | nil => rfl
  | cons b rest ih =>
    rw [bytesToBits, List.length_append, ih, List.length_cons]
    rw [byteBits, List.length_map, List.length_range]
    omega

/-- Claim C9: for every 4-byte netmask whose 32-bit pattern is k ones
followed by 32 - k zeros, getPrefixLength returns k; for every other bit
pattern of 4 bytes, it fails with NonContiguousBits. -/
theorem c9_prefix_length (bytes : List Nat) (hlen : bytes.length = 4) :
    (∀ k, k ≤ 32 →
      bytesToBits bytes = List.replicate k true ++ List.replicate (32 - k) false →
      getPrefixLength bytes = Except.ok k) ∧
    ((∀ k, k ≤ 32 →
      bytesToBits bytes ≠ List.replicate k true ++ List.replicate (32 - k) false) →
      getPrefixLength bytes = Except.error TapErr.nonContiguousBits) := by
  have hblen : (bytesToBits bytes).length = 32 := by
    rw [length_bytesToBits, hlen]
  constructor
  · intro k hk heq
    have hcont : contiguousBits (bytesToBits bytes) = true := by
      rw [heq]
      exact contiguousBits_replicate k (32 - k)
    have hclo : countLeadingOnes (bytesToBits bytes) = k := by
      rw [heq]
      exact countLeadingOnes_replicate k (32 - k)
    rw [getPrefixLength]
    simp [hcont, hclo]
  · intro hall
    have hcont : contiguousBits (bytesToBits bytes) = false := by
      cases hx : contiguousBits (bytesToBits bytes)
      · rfl
      · exfalso
        have hrep := contiguous_eq_replicate _ hx
        rw [hblen] at hrep
        have hle : countLeadingOnes (bytesToBits bytes) ≤ 32 := by
          have hc := countLeadingOnes_le_length (bytesToBits bytes)
          rw [hblen] at hc
          exact hc
        exact hall _ hle hrep
    rw [getPrefixLength]
    simp [hcont]

theorem c9_witness :
    getPrefixLength [255, 255, 224, 0] = Except.ok 19 := by
  have h := c9_prefix_length [255, 255, 224, 0] (by decide)
  exact h.1 19 (by decide) (by decide)

/-- The model of getPrefixLength agrees with every input and output of the
repository's own test suite for it (ipv4.test.ts). -/
theorem getPrefixLength_agrees_with_tests :
    getPrefixLength [0, 0, 0, 0] = Except.ok 0 ∧
    getPrefixLength [255, 0, 0, 0] = Except.ok 8 ∧
    getPrefixLength [255, 255, 0, 0] = Except.ok 16 ∧
    getPrefixLength [255, 255, 255, 0] = Except.ok 24 ∧
    getPrefixLength [255, 255, 255, 255] = Except.ok 32 ∧
    getPrefixLength [128, 0, 0, 0] = Except.ok 1 ∧
    getPrefixLength [254, 0, 0, 0] = Except.ok 7 ∧
    getPrefixLength [255, 248, 0, 0] = Except.ok 13 ∧
    getPrefixLength [255, 255, 224, 0] = Except.ok 19 ∧
    getPrefixLength [255, 255, 255, 128] = Except.ok 25 ∧
    getPrefixLength [255, 255, 255, 252] = Except.ok 30 ∧
    getPrefixLength [255, 0, 255, 0] = Except.error TapErr.nonContiguousBits ∧
    getPrefixLength [255, 254, 0, 1] = Except.error TapErr.nonContiguousBits ∧
    getPrefixLength [255, 255, 254, 255] = Except.error TapErr.nonContiguousBits :=
  ⟨rfl, rfl, rfl, rfl, rfl, rfl, rfl, rfl, rfl, rfl, rfl, rfl, rfl, rfl⟩
